import Mathlib

/-!
Verification development for the RAG ingestion-and-retrieval pipeline of
`guideagent_api` (`src/api/main.py` and `src/frontend/app.py`).

Python values stored in the metadata dict of a chunk are modelled by `PyVal`;
metadata dicts by insertion-ordered association lists; fallible handlers by
`Except`; the mutable vector store, temp-upload directory and the count of
embedding-service calls by an explicit `AppState` threaded through the
handlers.  External collaborators (the langchain loaders, the Chroma
similarity search, the JSON parser of the standard library, the Ollama
generation service) are passed in as explicit function parameters or, where
the spec is the only description available, modelled from the spec with a
doc comment saying so.
-/

namespace RagApi

/-- A Python value as it can appear in a metadata dict of this app:
a string, an integer (e.g. a PDF page number), or `None`. -/
inductive PyVal where
  | vStr (s : String)
  | vInt (n : Int)
  | vNone
deriving DecidableEq, Repr

/-- A Python dict with string keys, modelled as an insertion-ordered
association list (first binding of a key is the authoritative one). -/
abbrev Metadata := List (String × PyVal)

/-- Python truthiness of a `PyVal`: `None`, `""` and `0` are falsy. -/
def pyTruthy : PyVal → Bool
  | .vStr s => !s.isEmpty
  | .vInt n => decide (n ≠ 0)
  | .vNone => false

/-- Python `str()` of a `PyVal`, as the character list used in f-strings. -/
def pyStrChars : PyVal → List Char
  | .vStr s => s.data
  | .vInt n => (toString n).data
  | .vNone => "None".data

/-- Python `d.get(k, default)`: the stored value when the key is present
(even when that value is `None`), otherwise the default. -/
def pyGetD (m : Metadata) (k : String) (dflt : PyVal) : PyVal :=
  match List.lookup k m with
  | some v => v
  | none => dflt

/-- Python `d.get(k)`, defaulting to `None`. -/
def pyGet (m : Metadata) (k : String) : PyVal :=
  pyGetD m k .vNone

/-- Python `base.update(upd)` (`main.py` line 72): every key of `upd`
overwrites a same-named key of `base` in place (keeping its position),
and keys of `upd` absent from `base` are appended in the order of `upd`. -/
def dictUpdate (base upd : Metadata) : Metadata :=
  base.map (fun kv =>
    match List.lookup kv.1 upd with
    | some v => (kv.1, v)
    | none => kv)
  ++ upd.filter (fun kv => (List.lookup kv.1 base).isNone)

/-- A langchain `Document`: a text plus a metadata dict. -/
structure Doc where
  page_content : String
  metadata : Metadata
deriving DecidableEq, Repr

/-- The observable state of the app: the vector store contents, the
files existing under `./temp_uploads`, and how many embedding-service
calls have been made. -/
structure AppState where
  store : List Doc
  temp : List String
  embedCalls : Nat
deriving DecidableEq, Repr

/-- `chunk_size=1000` from `main.py` line 74. -/
def chunk_size : Nat := 1000

/-- `chunk_overlap=200` from `main.py` line 74. -/
def chunk_overlap : Nat := 200

/-- Modelled from the spec: the splitting algorithm itself lives in
`langchain_text_splitters.RecursiveCharacterTextSplitter`, which is not
part of this repository.  Spec section 4.2 and the Chunk data model
(section 3): each chunk is a contiguous span of at most `cs`
(chunk-size) characters of the source text, and consecutive chunks share
`ov` (chunk-overlap) characters.  Structural recursion on a fuel
argument so that the function evaluates by `rfl`/`decide`. -/
def splitTextGo (cs ov fuel : Nat) (t : List Char) : List (List Char) :=
  match fuel with
  | 0 => [t]
  | fuel + 1 =>
    if t.length ≤ cs then [t]
    else t.take cs :: splitTextGo cs ov fuel (t.drop (cs - ov))

/-- Modelled from the spec: split a text into chunks of at most
`chunk_size` characters, consecutive chunks sharing `chunk_overlap`
characters (spec sections 3 and 4.2), at the default parameters of
`main.py` line 74. -/
def splitText (t : List Char) : List (List Char) :=
  splitTextGo chunk_size chunk_overlap t.length t

/-- The reconstruction described by the claim: concatenate the chunks
after removing the declared overlap from every chunk but the first. -/
def reconstructChunks (ov : Nat) : List (List Char) → List Char
  | [] => []
  | c :: cs => c ++ (cs.map (fun k => k.drop ov)).flatten

/-! ## Ingestion pipeline (`process_document`, `main.py` lines 58-78) -/

/-- The three loaders `process_document` can dispatch to
(`main.py` lines 60-65). -/
inductive LoaderKind where
  | pyPDFLoader
  | wordDocumentLoader
  | markdownLoader
deriving DecidableEq, Repr

/-- The `if`/`elif` dispatch on `file_type` in `process_document`
(`main.py` lines 60-67); `none` corresponds to the
`ValueError("Unsupported file type: ...")` branch. -/
def dispatchLoader (file_type : String) : Option LoaderKind :=
  if file_type = "pdf" then some .pyPDFLoader
  else if file_type = "docx" then some .wordDocumentLoader
  else if file_type = "md" then some .markdownLoader
  else none

/-- `for doc in documents: doc.metadata.update(custom_metadata)`
(`main.py` lines 71-72). -/
def annotateDocs (documents : List Doc) (custom_metadata : Metadata) : List Doc :=
  documents.map (fun d => { d with metadata := dictUpdate d.metadata custom_metadata })

/-- `text_splitter.split_documents(documents)` (`main.py` line 75): the
text of each document is split into chunks, and every chunk carries a
copy of the metadata of its owning document (the chunk/metadata contract of spec
section 3; the splitter itself is langchain code, modelled by
`splitText`). -/
def split_documents (documents : List Doc) : List Doc :=
  documents.flatMap (fun d =>
    (splitText d.page_content.data).map
      (fun c => { page_content := String.mk c, metadata := d.metadata }))

/-- `vectorstore.add_documents(docs)` (`main.py` line 77): appends the
chunks to the store; the text of each chunk is embedded by the
embedding service, counted in `embedCalls`. -/
def add_documents (docs : List Doc) (s : AppState) : AppState :=
  { s with store := s.store ++ docs, embedCalls := s.embedCalls + docs.length }

/-- `process_document` (`main.py` lines 58-78).  The external loaders are
abstracted by `load`, giving the documents each loader would produce; an
unsupported `file_type` raises `ValueError`, modelled as `.error` with
the message from the source, before `load` is ever consulted. -/
def process_document (load : LoaderKind → List Doc) (file_type : String)
    (custom_metadata : Metadata) (s : AppState) : Except String AppState :=
  match dispatchLoader file_type with
  | none => .error ("Unsupported file type: " ++ file_type)
  | some k =>
    let documents := load k
    let documents := annotateDocs documents custom_metadata
    let docs := split_documents documents
    .ok (add_documents docs s)

/-! ## The upload endpoint (`upload_file`, `main.py` lines 81-121) -/

/-- A JSON value, as returned by `json.loads`. -/
inductive JVal where
  | jstr (s : String)
  | jnum (n : Int)
  | jbool (b : Bool)
  | jnull
  | jlist (xs : List JVal)
deriving Repr

/-- Python `str.split(sep)` for a one-character separator: splits at every
occurrence, keeping empty pieces (`"".split(";") == [""]`). -/
def pySplitOn (sep : Char) : List Char → List (List Char)
  | [] => [[]]
  | x :: xs =>
    if x = sep then [] :: pySplitOn sep xs
    else
      match pySplitOn sep xs with
      | [] => [[x]]
      | h :: t => (x :: h) :: t

/-- Python `str.strip()`: removes leading and trailing whitespace. -/
def stripChars (l : List Char) : List Char :=
  ((l.dropWhile Char.isWhitespace).reverse.dropWhile Char.isWhitespace).reverse

/-- The frontend keyword normalization (`app.py` line 44):
`[keyword.strip() for keyword in keywords_input.split(";") if keyword.strip()]`. -/
def keywords_list (keywords_input : String) : List String :=
  (((pySplitOn ';' keywords_input.data).map stripChars).filter
    (fun k => !k.isEmpty)).map String.mk

/-- Python `sep.join(pieces)` at the character level. -/
def pyJoinChars (sep : List Char) : List (List Char) → List Char
  | [] => []
  | [k] => k
  | k :: ks => k ++ sep ++ pyJoinChars sep ks

/-- Python `sep.join(strings)` (`main.py` line 111). -/
def pyStrJoin (sep : String) (ss : List String) : String :=
  String.mk (pyJoinChars sep.data (ss.map String.data))

/-- Checks that every element of a parsed JSON list is a string,
returning the strings; `none` models the `TypeError` that the Python
`str.join` raises on a non-string element. -/
def allStrs : List JVal → Option (List String)
  | [] => some []
  | .jstr s :: rest => (allStrs rest).map (fun ss => s :: ss)
  | _ => none

/-- `"; ".join(keywords_list)` (`main.py` line 111), including the
`TypeError` on non-string elements, which the handler does not catch. -/
def pyJoin (sep : String) (xs : List JVal) : Except String String :=
  match allStrs xs with
  | some ss => .ok (pyStrJoin sep ss)
  | none => .error "sequence item: expected str instance"

/-- The keyword validation of `upload_file` (`main.py` lines 95-100):
`json.loads` (abstracted by `parseJson`, `none` modelling
`JSONDecodeError`) followed by the `isinstance(keywords_list, list)`
check; the error strings are those the raised exceptions carry. -/
def parseKeywords (parseJson : String → Option JVal) (keywords : String) :
    Except String (List JVal) :=
  match parseJson keywords with
  | none => .error "Expecting value"
  | some (.jlist xs) => .ok xs
  | some _ => .error "Keywords must be a JSON list of strings."

/-- The expression `file.filename.split(".")[-1].lower()` (`main.py` line 105). -/
def file_extension_of (filename : String) : String :=
  String.mk (((pySplitOn '.' filename.data).getLastD []).map Char.toLower)

/-- An error response of a handler: either an explicitly raised
`HTTPException`, or an exception that escapes the handler uncaught. -/
inductive ApiError where
  | httpException (status_code : Nat) (detail : String)
  | uncaughtException (message : String)
deriving DecidableEq, Repr

/-- Python `str(e)` for the exceptions a handler can see:
`starlette.HTTPException.__str__` renders `"<status>: <detail>"`. -/
def errStr : ApiError → String
  | .httpException code detail => toString code ++ ": " ++ detail
  | .uncaughtException message => message

/-- The success payload of `upload_file` (`main.py` line 116). -/
structure UploadOk where
  status : String
  filename : String
  message : String
deriving DecidableEq, Repr

def TEMP_UPLOAD_DIR : String := "./temp_uploads"

/-- Writing the uploaded bytes to `file_path` (`main.py` lines 102-103);
opening an existing path overwrites it, so the path appears once. -/
def pyWriteFile (p : String) (temp : List String) : List String :=
  if p ∈ temp then temp else temp ++ [p]

/-- `os.remove(p)` guarded by `os.path.exists(p)`
(`main.py` lines 120-121). -/
def pyRemoveFile (p : String) (temp : List String) : List String :=
  temp.filter (fun q => q ≠ p)

/-- The link form field as stored in the metadata dict: the string when
supplied, Python `None` otherwise. -/
def pyOfLink : Option String → PyVal
  | some l => .vStr l
  | none => .vNone

/-- The body of the outer `try` of `upload_file` (`main.py` lines 94-116),
in source order: keyword validation, write of the temp file, extension
computation, metadata construction (including the `"; "`-join), then
`process_document`.  Errors are returned as the exception the
corresponding Python statement raises. -/
def upload_body (parseJson : String → Option JVal) (load : LoaderKind → List Doc)
    (filename title : String) (link : Option String) (keywords : String)
    (s : AppState) : Except ApiError UploadOk × AppState :=
  let file_path := TEMP_UPLOAD_DIR ++ "/" ++ filename
  match parseKeywords parseJson keywords with
  | .error e => (.error (.httpException 400 ("Invalid keywords format: " ++ e)), s)
  | .ok keywordsJson =>
    let s1 : AppState := { s with temp := pyWriteFile file_path s.temp }
    let file_extension := file_extension_of filename
    match pyJoin "; " keywordsJson with
    | .error e => (.error (.uncaughtException e), s1)
    | .ok joined =>
      let custom_metadata : Metadata :=
        [("title", .vStr title),
         ("link", pyOfLink link),
         ("filename", .vStr filename),
         ("keywords", .vStr joined)]
      match process_document load file_extension custom_metadata s1 with
      | .error e => (.error (.uncaughtException e), s1)
      | .ok s2 =>
        (.ok { status := "success", filename := filename,
               message := "File and metadata processed successfully." }, s2)

/-- The `upload_file` handler (`main.py` lines 81-121): the `try` body,
the catch-all `except Exception` that rewraps ANY exception — including
the handler-raised `HTTPException(400)` — into an `HTTPException(500)`,
and the `finally` block that removes the temp file. -/
def upload_file (parseJson : String → Option JVal) (load : LoaderKind → List Doc)
    (filename title : String) (link : Option String) (keywords : String)
    (s : AppState) : Except ApiError UploadOk × AppState :=
  let file_path := TEMP_UPLOAD_DIR ++ "/" ++ filename
  let r := upload_body parseJson load filename title link keywords s
  let result : Except ApiError UploadOk :=
    match r.1 with
    | .ok v => .ok v
    | .error e => .error (.httpException 500 ("An error occurred: " ++ errStr e))
  (result, { r.2 with temp := pyRemoveFile file_path r.2.temp })

/-- Modelled from the spec and the handler signature: `title: str =
Form(...)` (`main.py` line 84) declares `title` required; the HTTP
framework rejects a request without it with a 422 validation error
before the handler body runs.  The framework itself is not part of this
repository. -/
def upload_endpoint (parseJson : String → Option JVal) (load : LoaderKind → List Doc)
    (filename : String) (title : Option String) (link : Option String)
    (keywords : String) (s : AppState) : Except ApiError UploadOk × AppState :=
  match title with
  | none => (.error (.httpException 422 "Field required"), s)
  | some t => upload_file parseJson load filename t link keywords s

/-! ## Context assembly and citations (`chat_with_docs`, `main.py` lines 123-187) -/

/-- The line `Title: ...` built from `metadata.get("title", "N/A")` (`main.py` line 155). -/
def titlePiece (m : Metadata) : List Char :=
  "Title: ".data ++ pyStrChars (pyGetD m "title" (.vStr "N/A")) ++ "\n".data

/-- The line `Link: ...` built from `metadata.get("link")` (`main.py` line 157). -/
def linkPiece (m : Metadata) : List Char :=
  "Link: ".data ++ pyStrChars (pyGet m "link") ++ "\n".data

/-- The line `Keywords: ...` built from `metadata.get("keywords")` (`main.py` line 159). -/
def keywordsPiece (m : Metadata) : List Char :=
  "Keywords: ".data ++ pyStrChars (pyGet m "keywords") ++ "\n".data

/-- The header block built by `+=` concatenation in `main.py` lines
154-160: opening rule, Title line, Link line only when
`metadata.get("link")` is truthy, Keywords line only when
`metadata.get("keywords")` is truthy, closing rule. -/
def headerPieces (m : Metadata) : List (List Char) :=
  ["--- Source Document ---\n".data, titlePiece m]
  ++ (if pyTruthy (pyGet m "link") then [linkPiece m] else [])
  ++ (if pyTruthy (pyGet m "keywords") then [keywordsPiece m] else [])
  ++ ["-----------------------\n\n".data]

/-- The whole header string of one retrieved chunk. -/
def headerOf (m : Metadata) : String :=
  String.mk (headerPieces m).flatten

/-- The `for doc in retrieved_docs` loop of `main.py` lines 151-167:
each context document is the header prepended to the original chunk
text, keeping the original metadata. -/
def buildContext : List Doc → List Doc
  | [] => []
  | d :: ds =>
    { page_content := headerOf d.metadata ++ d.page_content,
      metadata := d.metadata } :: buildContext ds

/-- The stuff-documents chain joins the context document texts with a
blank line before substituting them into the prompt template. -/
def contextText (docs : List Doc) : String :=
  pyStrJoin "\n\n" (docs.map (fun d => d.page_content))

/-- The prompt template of `main.py` lines 132-142 with `{context}` and
`{input}` substituted. -/
def promptFor (context input : String) : String :=
  "\n    Answer the following question based only on the provided context.\n    The context for each document chunk includes its title, link, and keywords. Use them if the question asks for it.\n    If you don\u0027t know the answer, just say that you don\u0027t know.\n\n    <context>\n    "
  ++ context
  ++ "\n    </context>\n\n    Question: "
  ++ input
  ++ "\n    "

/-- A citation record as in the `Source` response model
(`main.py` lines 32-35); values are kept as `PyVal` since they are read
from the metadata dict. -/
structure Source where
  title : PyVal
  link : PyVal
  filename : PyVal
deriving DecidableEq, Repr

/-- `doc.metadata.get("filename", "unknown")` (`main.py` line 172). -/
def fnameOf (m : Metadata) : PyVal :=
  pyGetD m "filename" (.vStr "unknown")

/-- The citation dict built for a first-seen filename
(`main.py` lines 174-178). -/
def citeOf (m : Metadata) : Source :=
  { title := pyGetD m "title" (fnameOf m)
    link := pyGet m "link"
    filename := fnameOf m }

/-- The `sources_dict` loop of `main.py` lines 170-178: an
insertion-ordered dict keyed by filename, first occurrence wins; the
`seen` argument carries the keys already in the dict. -/
def buildSourcesAux : List Doc → List PyVal → List Source
  | [], _ => []
  | d :: ds, seen =>
    let fn := fnameOf d.metadata
    if fn ∈ seen then buildSourcesAux ds seen
    else citeOf d.metadata :: buildSourcesAux ds (fn :: seen)

/-- `sources = [Source(**data) for data in sources_dict.values()]`
(`main.py` line 179): the dict values in insertion order. -/
def buildSources (docs : List Doc) : List Source :=
  buildSourcesAux docs []

/-- Spec-side: the distinct elements of a list in first-seen order
(spec section 4.5: "group results by filename; first occurrence wins;
preserves first-seen order"). -/
def firstSeen : List PyVal → List PyVal
  | [] => []
  | x :: xs => x :: firstSeen (xs.filter (fun y => y ≠ x))
termination_by l => l.length
decreasing_by
  simp only [List.length_cons]
  exact Nat.lt_succ_of_le (List.length_filter_le _ _)

/-- Spec-side: the citation record described in spec sections 3 and 4.5 —
the metadata of the first occurrence, with `title` defaulting to `filename`
when absent and `link` optional (absent rendered as null). -/
def specCite (m : Metadata) : Source :=
  { title := match List.lookup "title" m with | some t => t | none => fnameOf m
    link := match List.lookup "link" m with | some l => l | none => .vNone
    filename := fnameOf m }

/-- Spec-side: the citation for filename `fn`, built from the first
result carrying that filename ("first occurrence wins"). -/
def citeOfFirst (docs : List Doc) (fn : PyVal) : Source :=
  match docs.find? (fun d => fnameOf d.metadata == fn) with
  | some d => specCite d.metadata
  | none => { title := .vNone, link := .vNone, filename := fn }

/-- Spec-side citation list: one citation per distinct filename among
the results, in first-seen order, built from the metadata of the
first occurrence (spec section 4.5). -/
def specCiteList (docs : List Doc) : List Source :=
  (firstSeen (docs.map (fun d => fnameOf d.metadata))).map (citeOfFirst docs)

/-! ## Retrieval and the chat endpoint -/

/-- Modelled from the spec: the similarity search belongs to Chroma, external
to this repository; spec section 4.4 describes it as returning the `k`
nearest stored records by similarity, ordered by descending similarity
score.  `sim` gives the similarity of each stored record to the query. -/
def vsQuery (sim : Doc → Int) (store : List Doc) (k : Nat) : List Doc :=
  (store.mergeSort (fun a b => decide (sim b ≤ sim a))).take k

/-- `search_kwargs={"k": 5}` (`main.py` line 145). -/
def chat_k : Nat := 5

/-- Modelled from the spec: the plain-chat default `k = 3`
(spec section 3, Retrieved Result); no plain-chat endpoint exists in
`src/`, so this value has no counterpart in the source. -/
def plain_chat_k : Nat := 3

/-- The response model of `/chat` (`main.py` lines 37-39). -/
structure QueryResponse where
  response : String
  sources : List Source
deriving DecidableEq, Repr

/-- The `chat_with_docs` handler (`main.py` lines 123-187).  `llm` is
`none` when the Ollama initialization at lines 42-48 failed; `generate`
abstracts the call of the stuff-documents chain to the model and may itself
fail (connection error at request time), which the handler does not
catch, so it escapes as an uncaught exception. -/
def chat_with_docs (llm : Option (String → Except String String)) (sim : Doc → Int)
    (store : List Doc) (queryText : String) : Except ApiError QueryResponse :=
  match llm with
  | none => .error (.httpException 503 "LLM service is not available.")
  | some generate =>
    let retrieved_docs := vsQuery sim store chat_k
    let context_with_metadata := buildContext retrieved_docs
    let sources := buildSources retrieved_docs
    match generate (promptFor (contextText context_with_metadata) queryText) with
    | .error e => .error (.uncaughtException e)
    | .ok response_text => .ok { response := response_text, sources := sources }

/-! ## Helper lemmas -/

theorem splitTextGo_drop (cs ov : Nat) (hov : ov < cs) (fuel : Nat) :
    ∀ t : List Char, t.length ≤ fuel →
      ((splitTextGo cs ov fuel t).map (fun k => k.drop ov)).flatten =
        t.drop ov := by
  induction fuel with
  | zero =>
    intro t ht
    have : t = [] := List.eq_nil_of_length_eq_zero (Nat.le_zero.mp ht)
    subst this
    simp [splitTextGo]
  | succ n ih =>
    intro t ht
    by_cases h : t.length ≤ cs
    · simp [splitTextGo, h]
    · have hrec : (t.drop (cs - ov)).length ≤ n := by
        simp only [List.length_drop]
        omega
      simp only [splitTextGo, if_neg h, List.map_cons, List.flatten_cons, ih _ hrec]
      rw [List.drop_take, List.drop_drop]
      have h1 : cs - ov + ov = ov + (cs - ov) := by omega
      rw [h1, ← List.drop_drop, List.take_append_drop]

theorem splitTextGo_reconstruct (cs ov : Nat) (hov : ov < cs)
    (fuel : Nat) (t : List Char) (ht : t.length ≤ fuel) :
    reconstructChunks ov (splitTextGo cs ov fuel t) = t := by
  cases fuel with
  | zero =>
    have : t = [] := List.eq_nil_of_length_eq_zero (Nat.le_zero.mp ht)
    subst this
    simp [splitTextGo, reconstructChunks]
  | succ n =>
    by_cases h : t.length ≤ cs
    · simp [splitTextGo, h, reconstructChunks]
    · have hrec : (t.drop (cs - ov)).length ≤ n := by
        simp only [List.length_drop]
        omega
      simp only [splitTextGo, if_neg h, reconstructChunks,
        splitTextGo_drop cs ov hov n _ hrec]
      rw [List.drop_drop]
      have h2 : cs - ov + ov = cs := by omega
      rw [h2, List.take_append_drop]

theorem lookup_append (k : String) (l1 l2 : Metadata) :
    List.lookup k (l1 ++ l2) = (List.lookup k l1).or (List.lookup k l2) := by
  induction l1 with
  | nil => simp
  | cons kv rest ih =>
    obtain ⟨a, v⟩ := kv
    cases h : k == a <;>
      simp [List.lookup_cons, h, ih]

theorem lookup_updateMap (base upd : Metadata) (k : String) :
    List.lookup k (base.map (fun kv =>
      match List.lookup kv.1 upd with
      | some v => (kv.1, v)
      | none => kv)) =
    match List.lookup k base with
    | some v => some (match List.lookup k upd with | some w => w | none => v)
    | none => none := by
  induction base with
  | nil => simp
  | cons kv rest ih =>
    obtain ⟨a, v⟩ := kv
    by_cases h : k = a
    · subst h
      cases hu : List.lookup k upd <;>
        simp [List.lookup_cons, hu]
    · have hba : (k == a) = false := by simp [h]
      cases hu : List.lookup a upd <;>
        simp [List.lookup_cons, hu, hba, ih]

theorem lookup_filter_of_none (base upd : Metadata) (k : String)
    (h : List.lookup k base = none) :
    List.lookup k (upd.filter (fun kv => (List.lookup kv.1 base).isNone)) =
      List.lookup k upd := by
  induction upd with
  | nil => simp
  | cons kv rest ih =>
    obtain ⟨a, w⟩ := kv
    by_cases hk : k = a
    · subst hk
      simp [List.filter_cons, h, List.lookup_cons]
    · have hba : (k == a) = false := by simp [hk]
      cases hb : (List.lookup a base).isNone <;>
        simp [List.filter_cons, hb, List.lookup_cons, hba, ih]

theorem lookup_filter_of_some (base upd : Metadata) (k : String) (v : PyVal)
    (h : List.lookup k base = some v) :
    List.lookup k (upd.filter (fun kv => (List.lookup kv.1 base).isNone)) = none := by
  induction upd with
  | nil => simp
  | cons kv rest ih =>
    obtain ⟨a, w⟩ := kv
    by_cases hk : k = a
    · subst hk
      simp [List.filter_cons, h, ih]
    · have hba : (k == a) = false := by simp [hk]
      cases hb : (List.lookup a base).isNone <;>
        simp [List.filter_cons, hb, List.lookup_cons, hba, ih]

theorem lookup_dictUpdate (base upd : Metadata) (k : String) :
    List.lookup k (dictUpdate base upd) =
      (List.lookup k upd).or (List.lookup k base) := by
  unfold dictUpdate
  rw [lookup_append, lookup_updateMap]
  cases hb : List.lookup k base with
  | none =>
    rw [lookup_filter_of_none base upd k hb]
    cases List.lookup k upd <;> simp [Option.or]
  | some v =>
    rw [lookup_filter_of_some base upd k v hb]
    cases List.lookup k upd <;> simp [Option.or]

theorem mem_firstSeen (l : List PyVal) (x : PyVal) (h : x ∈ firstSeen l) : x ∈ l := by
  induction l using firstSeen.induct with
  | case1 => simp [firstSeen] at h
  | case2 y ys ih =>
    rw [firstSeen] at h
    rcases List.mem_cons.mp h with h | h
    · simp [h]
    · exact List.mem_cons_of_mem _ (List.mem_of_mem_filter (ih h))

theorem citeOf_eq_specCite (m : Metadata) : citeOf m = specCite m := rfl

theorem citeOfFirst_cons_ne (d : Doc) (t : List Doc) (fn : PyVal)
    (h : fnameOf d.metadata ≠ fn) : citeOfFirst (d :: t) fn = citeOfFirst t fn := by
  unfold citeOfFirst
  rw [List.find?_cons_of_neg _ (by simp [h])]

theorem citeOfFirst_cons_self (d : Doc) (t : List Doc) :
    citeOfFirst (d :: t) (fnameOf d.metadata) = specCite d.metadata := by
  unfold citeOfFirst
  rw [List.find?_cons_of_pos _ (by simp)]

theorem buildSourcesAux_eq (ds : List Doc) : ∀ seen : List PyVal,
    buildSourcesAux ds seen =
      (firstSeen ((ds.map (fun d => fnameOf d.metadata)).filter
        (fun x => decide (x ∉ seen)))).map (citeOfFirst ds) := by
  induction ds with
  | nil =>
    intro seen
    simp [buildSourcesAux, firstSeen]
  | cons d t ih =>
    intro seen
    by_cases hfn : fnameOf d.metadata ∈ seen
    · rw [buildSourcesAux, if_pos hfn, ih seen]
      rw [List.map_cons, List.filter_cons_of_neg (by simp [hfn])]
      apply List.map_congr_left
      intro fn hmem
      have hfilter := mem_firstSeen _ _ hmem
      have : fn ∉ seen := by
        have := List.of_mem_filter hfilter
        simpa using this
      exact (citeOfFirst_cons_ne d t fn (fun he => this (he ▸ hfn))).symm
    · rw [buildSourcesAux, if_neg hfn]
      rw [List.map_cons, List.filter_cons_of_pos (by simp [hfn])]
      rw [firstSeen, List.map_cons, List.filter_filter]
      have hpred : ∀ x ∈ t.map (fun d => fnameOf d.metadata),
          (decide (x ≠ fnameOf d.metadata) && decide (x ∉ seen)) =
            decide (x ∉ fnameOf d.metadata :: seen) := by
        intro x _
        by_cases h1 : x = fnameOf d.metadata <;>
          by_cases h2 : x ∈ seen <;>
            simp [h1, h2]
      rw [List.filter_congr hpred]
      congr 1
      · rw [citeOfFirst_cons_self d t]
        exact citeOf_eq_specCite d.metadata
      · rw [ih (fnameOf d.metadata :: seen)]
        apply List.map_congr_left
        intro fn hmem
        have hfilter := mem_firstSeen _ _ hmem
        have hne : fn ≠ fnameOf d.metadata := by
          have := List.of_mem_filter hfilter
          simp at this
          exact this.1
        exact (citeOfFirst_cons_ne d t fn (fun he => hne he.symm)).symm

theorem buildSources_eq_specCiteList (docs : List Doc) :
    buildSources docs = specCiteList docs := by
  unfold buildSources specCiteList
  rw [buildSourcesAux_eq docs []]
  congr 2
  apply List.filter_eq_self.mpr
  intro a _
  simp

theorem pySplitOn_no_sep (sep : Char) (k : List Char) (h : sep ∉ k) :
    pySplitOn sep k = [k] := by
  induction k with
  | nil => rfl
  | cons x xs ih =>
    have hx : ¬x = sep := fun he => h (he ▸ List.mem_cons_self x xs)
    have hxs : sep ∉ xs := fun hm => h (List.mem_cons_of_mem x hm)
    rw [pySplitOn, if_neg hx, ih hxs]

theorem pySplitOn_append_sep (sep : Char) (k rest : List Char) (h : sep ∉ k) :
    pySplitOn sep (k ++ sep :: rest) = k :: pySplitOn sep rest := by
  induction k with
  | nil => simp [pySplitOn]
  | cons x xs ih =>
    have hx : ¬x = sep := fun he => h (he ▸ List.mem_cons_self x xs)
    have hxs : sep ∉ xs := fun hm => h (List.mem_cons_of_mem x hm)
    rw [List.cons_append, pySplitOn, if_neg hx, ih hxs]

theorem pySplitOn_pyJoin (ks : List (List Char)) (hks : ∀ k2 ∈ ks, ';' ∉ k2) :
    ∀ k : List Char, ';' ∉ k →
      pySplitOn ';' (pyJoinChars [';', ' '] (k :: ks)) =
        k :: ks.map (fun k2 => ' ' :: k2) := by
  induction ks with
  | nil =>
    intro k hk
    rw [pyJoinChars, pySplitOn_no_sep ';' k hk]
    rfl
  | cons k2 ks' ih =>
    intro k hk
    have hk2 : ';' ∉ k2 := hks k2 (List.mem_cons_self k2 ks')
    have hks' : ∀ x ∈ ks', ';' ∉ x := fun x hx => hks x (List.mem_cons_of_mem k2 hx)
    show pySplitOn ';' (k ++ [';', ' '] ++ pyJoinChars [';', ' '] (k2 :: ks')) = _
    have harr : k ++ [';', ' '] ++ pyJoinChars [';', ' '] (k2 :: ks') =
        k ++ ';' :: (' ' :: pyJoinChars [';', ' '] (k2 :: ks')) := by
      simp
    rw [harr, pySplitOn_append_sep ';' k _ hk]
    have hsp : pySplitOn ';' (' ' :: pyJoinChars [';', ' '] (k2 :: ks')) =
        (' ' :: k2) :: ks'.map (fun x => ' ' :: x) := by
      rw [pySplitOn, if_neg (by decide), ih hks' k2 hk2]
    rw [hsp]
    rfl

theorem dropWhile_eq_self_of_head (p : Char → Bool) (l : List Char)
    (h : ∀ c, l.head? = some c → p c = false) : l.dropWhile p = l := by
  cases l with
  | nil => rfl
  | cons c ls =>
    rw [List.dropWhile_cons, h c rfl]
    simp

theorem stripChars_clean (k : List Char)
    (hhead : ∀ c, k.head? = some c → c.isWhitespace = false)
    (hlast : ∀ c, k.getLast? = some c → c.isWhitespace = false) :
    stripChars k = k := by
  unfold stripChars
  rw [dropWhile_eq_self_of_head _ _ hhead]
  rw [dropWhile_eq_self_of_head _ _ (by
    intro c hc
    apply hlast
    rwa [List.getLast?_eq_head?_reverse])]
  exact List.reverse_reverse k

theorem stripChars_cons_space (k : List Char) :
    stripChars (' ' :: k) = stripChars k := by
  unfold stripChars
  rw [List.dropWhile_cons]
  simp

theorem keywords_list_join (ks : List (List Char))
    (hne : ∀ k ∈ ks, k ≠ [])
    (hsep : ∀ k ∈ ks, ';' ∉ k)
    (hhead : ∀ k ∈ ks, ∀ c, k.head? = some c → c.isWhitespace = false)
    (hlast : ∀ k ∈ ks, ∀ c, k.getLast? = some c → c.isWhitespace = false) :
    keywords_list (String.mk (pyJoinChars [';', ' '] ks)) = ks.map String.mk := by
  cases ks with
  | nil => rfl
  | cons k ks' =>
    unfold keywords_list
    have hdata : (String.mk (pyJoinChars [';', ' '] (k :: ks'))).data =
        pyJoinChars [';', ' '] (k :: ks') := rfl
    rw [hdata,
      pySplitOn_pyJoin ks' (fun x hx => hsep x (List.mem_cons_of_mem k hx)) k
        (hsep k (List.mem_cons_self k ks'))]
    rw [List.map_cons,
      stripChars_clean k (hhead k (List.mem_cons_self k ks'))
        (hlast k (List.mem_cons_self k ks'))]
    rw [List.map_map]
    have hmap : ks'.map (stripChars ∘ fun k2 => ' ' :: k2) = ks' := by
      rw [show (stripChars ∘ fun k2 : List Char => ' ' :: k2) =
          (fun k2 : List Char => stripChars (' ' :: k2)) from rfl]
      have : ∀ k2 ∈ ks', stripChars (' ' :: k2) = id k2 := by
        intro k2 hk2
        rw [stripChars_cons_space,
          stripChars_clean k2 (hhead k2 (List.mem_cons_of_mem k hk2))
            (hlast k2 (List.mem_cons_of_mem k hk2))]
        rfl
      rw [List.map_congr_left this, List.map_id]
    rw [hmap]
    have hfilter : (k :: ks').filter (fun x => !x.isEmpty) = k :: ks' := by
      apply List.filter_eq_self.mpr
      intro a ha
      have : a ≠ [] := hne a ha
      simp [List.isEmpty_iff, this]
    rw [hfilter]

theorem head_char_ne {l1 l2 : List Char} {c1 c2 : Char} (h1 : l1.head? = some c1)
    (h2 : l2.head? = some c2) (hc : c1 ≠ c2) : l1 ≠ l2 := by
  intro he
  subst he
  rw [h1] at h2
  exact hc (Option.some.inj h2)

theorem linkPiece_head (m : Metadata) : (linkPiece m).head? = some 'L' := rfl

theorem titlePiece_head (m : Metadata) : (titlePiece m).head? = some 'T' := rfl

theorem keywordsPiece_head (m : Metadata) : (keywordsPiece m).head? = some 'K' := rfl

theorem ruleOpen_head : ("--- Source Document ---\n".data).head? = some '-' := rfl

theorem ruleClose_head : ("-----------------------\n\n".data).head? = some '-' := rfl

theorem linkPiece_mem_headerPieces (m : Metadata) :
    linkPiece m ∈ headerPieces m ↔ pyTruthy (pyGet m "link") = true := by
  constructor
  · intro h
    by_contra hf
    have hl : pyTruthy (pyGet m "link") = false := Bool.not_eq_true _ ▸ Bool.eq_false_iff.mpr hf
    rw [headerPieces, hl] at h
    simp only [Bool.false_eq_true, if_false, List.nil_append, List.append_nil] at h
    rcases List.mem_cons.mp h with h | h
    · exact head_char_ne (linkPiece_head m) ruleOpen_head (by decide) h
    rcases List.mem_cons.mp h with h | h
    · exact head_char_ne (linkPiece_head m) (titlePiece_head m) (by decide) h
    rcases List.mem_append.mp h with h | h
    · by_cases hk : pyTruthy (pyGet m "keywords") = true
      · rw [if_pos hk] at h
        rcases List.mem_singleton.mp h with h
        exact head_char_ne (linkPiece_head m) (keywordsPiece_head m) (by decide) h
      · rw [if_neg hk] at h
        exact absurd h (List.not_mem_nil _)
    · rcases List.mem_singleton.mp h with h
      exact head_char_ne (linkPiece_head m) ruleClose_head (by decide) h
  · intro h
    rw [headerPieces, h]
    simp

theorem keywordsPiece_mem_headerPieces (m : Metadata) :
    keywordsPiece m ∈ headerPieces m ↔ pyTruthy (pyGet m "keywords") = true := by
  constructor
  · intro h
    by_contra hf
    have hk : pyTruthy (pyGet m "keywords") = false := Bool.not_eq_true _ ▸ Bool.eq_false_iff.mpr hf
    rw [headerPieces, hk] at h
    simp only [Bool.false_eq_true, if_false, List.nil_append, List.append_nil] at h
    rcases List.mem_cons.mp h with h | h
    · exact head_char_ne (keywordsPiece_head m) ruleOpen_head (by decide) h
    rcases List.mem_cons.mp h with h | h
    · exact head_char_ne (keywordsPiece_head m) (titlePiece_head m) (by decide) h
    rcases List.mem_append.mp h with h | h
    · by_cases hl : pyTruthy (pyGet m "link") = true
      · rw [if_pos hl] at h
        rcases List.mem_singleton.mp h with h
        exact head_char_ne (keywordsPiece_head m) (linkPiece_head m) (by decide) h
      · rw [if_neg hl] at h
        exact absurd h (List.not_mem_nil _)
    · rcases List.mem_singleton.mp h with h
      exact head_char_ne (keywordsPiece_head m) ruleClose_head (by decide) h
  · intro h
    rw [headerPieces, h]
    by_cases hl : pyTruthy (pyGet m "link") = true <;> simp [hl]

theorem titlePiece_mem_headerPieces (m : Metadata) :
    titlePiece m ∈ headerPieces m := by
  rw [headerPieces]
  simp

theorem buildContext_eq_map (docs : List Doc) :
    buildContext docs = docs.map (fun d =>
      { page_content := headerOf d.metadata ++ d.page_content,
        metadata := d.metadata }) := by
  induction docs with
  | nil => rfl
  | cons d t ih => rw [buildContext, ih, List.map_cons]

theorem mem_split_documents (documents : List Doc) (c : Doc) :
    c ∈ split_documents documents ↔
      ∃ d ∈ documents, ∃ t ∈ splitText d.page_content.data,
        c = { page_content := String.mk t, metadata := d.metadata } := by
  unfold split_documents
  rw [List.mem_flatMap]
  constructor
  · rintro ⟨d, hd, hc⟩
    rcases List.mem_map.mp hc with ⟨t, ht, rfl⟩
    exact ⟨d, hd, t, ht, rfl⟩
  · rintro ⟨d, hd, t, ht, rfl⟩
    exact ⟨d, hd, List.mem_map.mpr ⟨t, ht, rfl⟩⟩

theorem allStrs_map_jstr (ss : List String) : allStrs (ss.map JVal.jstr) = some ss := by
  induction ss with
  | nil => rfl
  | cons s rest ih => simp [allStrs, ih]

theorem vsQuery_length (sim : Doc → Int) (store : List Doc) (k : Nat) :
    (vsQuery sim store k).length = min k store.length := by
  unfold vsQuery
  rw [List.length_take, List.length_mergeSort]

theorem vsQuery_sorted (sim : Doc → Int) (store : List Doc) (k : Nat) :
    (vsQuery sim store k).Pairwise (fun a b => sim b ≤ sim a) := by
  unfold vsQuery
  have hs := @List.sorted_mergeSort Doc
    (fun a b : Doc => decide (sim b ≤ sim a))
    (fun a b c hab hbc => by
      simp only [decide_eq_true_eq] at *
      omega)
    (fun a b => by
      simp only [Bool.or_eq_true, decide_eq_true_eq]
      omega)
    store
  have hp : (store.mergeSort (fun a b => decide (sim b ≤ sim a))).Pairwise
      (fun a b => sim b ≤ sim a) :=
    hs.imp (fun h => by simpa using h)
  exact hp.sublist (List.take_sublist _ _)

theorem process_document_ok (load : LoaderKind → List Doc) (file_type : String)
    (custom : Metadata) (s s' : AppState)
    (h : process_document load file_type custom s = .ok s') :
    ∃ k, dispatchLoader file_type = some k ∧
      s' = add_documents (split_documents (annotateDocs (load k) custom)) s := by
  unfold process_document at h
  cases hd : dispatchLoader file_type with
  | none =>
    rw [hd] at h
    exact absurd h (by simp)
  | some k =>
    rw [hd] at h
    exact ⟨k, rfl, (Except.ok.inj h).symm⟩

theorem split_annotate_metadata (documents : List Doc) (custom : Metadata) (c : Doc)
    (hc : c ∈ split_documents (annotateDocs documents custom)) :
    (∀ key v, List.lookup key custom = some v → List.lookup key c.metadata = some v) ∧
    ∃ d ∈ documents, c.metadata = dictUpdate d.metadata custom := by
  rcases (mem_split_documents _ c).mp hc with ⟨d', hd', t, ht, rfl⟩
  unfold annotateDocs at hd'
  rcases List.mem_map.mp hd' with ⟨d, hdm, rfl⟩
  constructor
  · intro key v hkv
    show List.lookup key (dictUpdate d.metadata custom) = some v
    rw [lookup_dictUpdate, hkv]
    rfl
  · exact ⟨d, hdm, rfl⟩

theorem upload_file_eq (parseJson : String → Option JVal) (load : LoaderKind → List Doc)
    (filename title : String) (link : Option String) (keywords : String) (s : AppState) :
    upload_file parseJson load filename title link keywords s =
      ((match (upload_body parseJson load filename title link keywords s).1 with
        | .ok v => .ok v
        | .error e => .error (.httpException 500 ("An error occurred: " ++ errStr e))),
       { (upload_body parseJson load filename title link keywords s).2 with
         temp := pyRemoveFile (TEMP_UPLOAD_DIR ++ "/" ++ filename)
           (upload_body parseJson load filename title link keywords s).2.temp }) := rfl

theorem upload_body_proc_err (parseJson : String → Option JVal) (load : LoaderKind → List Doc)
    (filename title : String) (link : Option String) (keywords : String)
    (s : AppState) (ss : List String) (e : String)
    (hparse : parseJson keywords = some (.jlist (ss.map JVal.jstr)))
    (hproc : process_document load (file_extension_of filename)
        [("title", .vStr title),
         ("link", pyOfLink link),
         ("filename", .vStr filename),
         ("keywords", .vStr (pyStrJoin "; " ss))]
        { s with temp := pyWriteFile (TEMP_UPLOAD_DIR ++ "/" ++ filename) s.temp } =
      .error e) :
    upload_body parseJson load filename title link keywords s =
      (.error (.uncaughtException e),
       { s with temp := pyWriteFile (TEMP_UPLOAD_DIR ++ "/" ++ filename) s.temp }) := by
  unfold upload_body parseKeywords pyJoin
  rw [hparse]
  dsimp only
  rw [allStrs_map_jstr]
  dsimp only
  rw [hproc]

theorem upload_body_proc_ok (parseJson : String → Option JVal) (load : LoaderKind → List Doc)
    (filename title : String) (link : Option String) (keywords : String)
    (s : AppState) (ss : List String) (s2 : AppState)
    (hparse : parseJson keywords = some (.jlist (ss.map JVal.jstr)))
    (hproc : process_document load (file_extension_of filename)
        [("title", .vStr title),
         ("link", pyOfLink link),
         ("filename", .vStr filename),
         ("keywords", .vStr (pyStrJoin "; " ss))]
        { s with temp := pyWriteFile (TEMP_UPLOAD_DIR ++ "/" ++ filename) s.temp } =
      .ok s2) :
    upload_body parseJson load filename title link keywords s =
      (.ok { status := "success", filename := filename,
             message := "File and metadata processed successfully." }, s2) := by
  unfold upload_body parseKeywords pyJoin
  rw [hparse]
  dsimp only
  rw [allStrs_map_jstr]
  dsimp only
  rw [hproc]

theorem upload_body_temp (parseJson : String → Option JVal) (load : LoaderKind → List Doc)
    (filename title : String) (link : Option String) (keywords : String) (s : AppState) :
    (upload_body parseJson load filename title link keywords s).2.temp = s.temp ∨
    (upload_body parseJson load filename title link keywords s).2.temp =
      pyWriteFile (TEMP_UPLOAD_DIR ++ "/" ++ filename) s.temp := by
  unfold upload_body
  dsimp only
  split
  · left; rfl
  · split
    · right; rfl
    · split
      · right; rfl
      · right
        rename_i s2 hp
        rcases process_document_ok _ _ _ _ _ hp with ⟨k, _, rfl⟩
        rfl

theorem pyRemove_pyWrite (p : String) (temp : List String) :
    pyRemoveFile p (pyWriteFile p temp) = pyRemoveFile p temp := by
  unfold pyRemoveFile pyWriteFile
  by_cases h : p ∈ temp
  · rw [if_pos h]
  · rw [if_neg h, List.filter_append]
    simp

/-! ## Claim theorems -/

/-- C1, counterexample: a two-unit PDF whose loader units carry different
base metadata (page 0 and page 1).  After ingestion the two chunks do
NOT carry identical metadata mappings, and each carries a "page" field
that the declared metadata does not have, so chunk metadata does not
equal the declared metadata field-for-field.  This refutes the claim as
stated at this concrete input. -/
theorem C1_counterexample :
    ∃ s' : AppState,
      process_document
        (fun _ => [{ page_content := "alpha", metadata := [("page", PyVal.vInt 0)] },
                   { page_content := "beta", metadata := [("page", PyVal.vInt 1)] }])
        "pdf"
        [("title", PyVal.vStr "T"), ("link", PyVal.vNone),
         ("filename", PyVal.vStr "f.pdf"), ("keywords", PyVal.vStr "k")]
        { store := [], temp := [], embedCalls := 0 } = Except.ok s' ∧
      (¬ ∀ c1 ∈ s'.store, ∀ c2 ∈ s'.store, c1.metadata = c2.metadata) ∧
      s'.store.map (fun c => List.lookup "page" c.metadata) =
        [some (PyVal.vInt 0), some (PyVal.vInt 1)] ∧
      List.lookup "page"
        ([("title", PyVal.vStr "T"), ("link", PyVal.vNone),
          ("filename", PyVal.vStr "f.pdf"), ("keywords", PyVal.vStr "k")] : Metadata) =
        none := by
  refine ⟨_, rfl, ?_, ?_, ?_⟩ <;> decide

/-- C1, amended: every chunk produced by `process_document` carries its
owning loader unit's base metadata updated with the caller's declared
metadata, so every caller-supplied field is present on every chunk with
exactly its declared value (caller fields overwrite same-named loader
fields); chunks from the same loader unit carry identical metadata, but
chunks from units with different base metadata (e.g. PDF pages) may
differ on loader-supplied fields, and the full mapping need not equal
the declared metadata alone. -/
theorem C1_metadata_propagation (load : LoaderKind → List Doc) (file_type : String)
    (custom : Metadata) (s s' : AppState)
    (h : process_document load file_type custom s = .ok s') :
    ∃ k, dispatchLoader file_type = some k ∧
      s'.store = s.store ++ split_documents (annotateDocs (load k) custom) ∧
      ∀ c ∈ split_documents (annotateDocs (load k) custom),
        (∀ key v, List.lookup key custom = some v → List.lookup key c.metadata = some v) ∧
        ∃ d ∈ load k, c.metadata = dictUpdate d.metadata custom := by
  rcases process_document_ok _ _ _ _ _ h with ⟨k, hk, rfl⟩
  exact ⟨k, hk, rfl, fun c hc => split_annotate_metadata _ _ c hc⟩

/-- C1, witness: the amended theorem applied to a concrete one-unit
upload whose chunk ends up carrying the declared title. -/
theorem C1_metadata_propagation_witness :
    ∃ k, dispatchLoader "pdf" = some k ∧
      (AppState.mk [{ page_content := "hello", metadata := [("title", PyVal.vStr "T")] }]
          [] 1).store =
        (AppState.mk [] [] 0).store ++
          split_documents (annotateDocs
            ((fun _ : LoaderKind => ([{ page_content := "hello", metadata := [] }] : List Doc)) k)
            [("title", PyVal.vStr "T")]) ∧
      ∀ c ∈ split_documents (annotateDocs
            ((fun _ : LoaderKind => ([{ page_content := "hello", metadata := [] }] : List Doc)) k)
            [("title", PyVal.vStr "T")]),
        (∀ key v, List.lookup key ([("title", PyVal.vStr "T")] : Metadata) = some v →
          List.lookup key c.metadata = some v) ∧
        ∃ d ∈ (fun _ : LoaderKind => ([{ page_content := "hello", metadata := [] }] : List Doc)) k,
          c.metadata = dictUpdate d.metadata [("title", PyVal.vStr "T")] :=
  C1_metadata_propagation
    (fun _ => [{ page_content := "hello", metadata := [] }]) "pdf"
    [("title", PyVal.vStr "T")] (AppState.mk [] [] 0)
    (AppState.mk [{ page_content := "hello", metadata := [("title", PyVal.vStr "T")] }] [] 1)
    rfl

/-- C2: the citation list built by `chat_with_docs` equals the spec-side
`specCiteList`: exactly one citation per distinct filename among the
retrieved results, in first-seen order, built from the metadata of the
first occurrence, with title defaulting to the filename value when the
title key is absent and link optional; and a successful chat response
returns exactly this list for the retrieved results. -/
theorem C2_citation_dedup :
    (∀ docs : List Doc, buildSources docs = specCiteList docs) ∧
    (∀ (generate : String → Except String String) (sim : Doc → Int) (store : List Doc)
        (queryText : String) (r : QueryResponse),
      chat_with_docs (some generate) sim store queryText = .ok r →
        r.sources = specCiteList (vsQuery sim store chat_k)) := by
  refine ⟨buildSources_eq_specCiteList, ?_⟩
  intro g sim store q r h
  unfold chat_with_docs at h
  dsimp only at h
  cases hg : g (promptFor (contextText (buildContext (vsQuery sim store chat_k))) q) with
  | error e =>
    rw [hg] at h
    exact absurd h (by simp)
  | ok t =>
    rw [hg] at h
    have hr := Except.ok.inj h
    rw [← hr]
    exact buildSources_eq_specCiteList _

/-- C2, witness: the citation part of a concrete successful chat. -/
theorem C2_citation_dedup_witness :
    (QueryResponse.mk "ok" []).sources =
      specCiteList (vsQuery (fun _ => (0 : Int)) [] chat_k) :=
  C2_citation_dedup.2 (fun _ => Except.ok "ok") (fun _ => 0) [] "q"
    (QueryResponse.mk "ok" [])
    (by simp [chat_with_docs, vsQuery, List.mergeSort, buildContext, buildSources,
          buildSourcesAux])

/-- C3: the context documents handed to the generation chain are, in
retrieval order, the original chunk texts each preceded by its header;
the header always contains the Title line, contains the Link line
exactly when the link value is truthy (present and non-empty), contains
the Keywords line exactly when the keywords value is truthy; and the
chat handler feeds the generator exactly the prompt built from this
context for the top-`chat_k` retrieved results. -/
theorem C3_context_assembly :
    (∀ docs : List Doc, buildContext docs = docs.map (fun d =>
        { page_content := headerOf d.metadata ++ d.page_content, metadata := d.metadata })) ∧
    (∀ m : Metadata, titlePiece m ∈ headerPieces m) ∧
    (∀ m : Metadata, linkPiece m ∈ headerPieces m ↔ pyTruthy (pyGet m "link") = true) ∧
    (∀ m : Metadata, keywordsPiece m ∈ headerPieces m ↔ pyTruthy (pyGet m "keywords") = true) ∧
    (∀ (generate : String → Except String String) (sim : Doc → Int) (store : List Doc)
        (queryText : String),
      chat_with_docs (some generate) sim store queryText =
        match generate (promptFor
            (contextText (buildContext (vsQuery sim store chat_k))) queryText) with
        | .error e => .error (.uncaughtException e)
        | .ok t => .ok { response := t, sources := buildSources (vsQuery sim store chat_k) }) :=
  ⟨buildContext_eq_map, titlePiece_mem_headerPieces, linkPiece_mem_headerPieces,
   keywordsPiece_mem_headerPieces, fun _ _ _ _ => rfl⟩

/-- C3, witness: at a metadata dict with a non-empty link and no
keywords, the header contains the Title and Link lines and not the
Keywords line. -/
theorem C3_context_assembly_witness :
    linkPiece [("link", PyVal.vStr "http x")] ∈
      headerPieces [("link", PyVal.vStr "http x")] ∧
    keywordsPiece [("link", PyVal.vStr "http x")] ∉
      headerPieces [("link", PyVal.vStr "http x")] ∧
    titlePiece [("link", PyVal.vStr "http x")] ∈
      headerPieces [("link", PyVal.vStr "http x")] :=
  ⟨(C3_context_assembly.2.2.1 [("link", PyVal.vStr "http x")]).mpr (by decide),
   fun hmem => absurd
     ((C3_context_assembly.2.2.2.1 [("link", PyVal.vStr "http x")]).mp hmem)
     (by decide),
   C3_context_assembly.2.1 [("link", PyVal.vStr "http x")]⟩

/-- C4: for any input text, concatenating the chunks produced by the
splitter at the default parameters (`chunk_size = 1000`,
`chunk_overlap = 200`) after removing the declared overlap from every
chunk but the first reconstructs the original text losslessly. -/
theorem C4_chunk_coverage (t : List Char) :
    reconstructChunks chunk_overlap (splitText t) = t := by
  unfold splitText
  exact splitTextGo_reconstruct chunk_size chunk_overlap (by decide) t.length t
    (Nat.le_refl _)

/-- C5, counterexample: `raw_text`, which the claim lists among the
declared types, is NOT dispatched to any loader — `process_document`
fails with the unsupported-file-type error for it. -/
theorem C5_counterexample :
    dispatchLoader "raw_text" = none ∧
    process_document (fun _ => []) "raw_text" []
        { store := [], temp := [], embedCalls := 0 } =
      .error "Unsupported file type: raw_text" :=
  ⟨rfl, rfl⟩

/-- C5, amended: document loading is polymorphic over `{pdf, docx, md}`
only: each of those types is dispatched to its corresponding loader, and
any other declared type — including `raw_text` — fails with the
unsupported-file-type error before any loading (the result does not
depend on the loaders), splitting, or insertion occurs (no new state is
produced). -/
theorem C5_loader_dispatch :
    dispatchLoader "pdf" = some .pyPDFLoader ∧
    dispatchLoader "docx" = some .wordDocumentLoader ∧
    dispatchLoader "md" = some .markdownLoader ∧
    (∀ t : String, t ≠ "pdf" → t ≠ "docx" → t ≠ "md" → dispatchLoader t = none) ∧
    (∀ t : String, dispatchLoader t = none →
      ∀ (load load2 : LoaderKind → List Doc) (custom : Metadata) (s : AppState),
        process_document load t custom s = .error ("Unsupported file type: " ++ t) ∧
        process_document load t custom s = process_document load2 t custom s) := by
  refine ⟨rfl, rfl, rfl, ?_, ?_⟩
  · intro t h1 h2 h3
    unfold dispatchLoader
    rw [if_neg h1, if_neg h2, if_neg h3]
  · intro t ht load load2 custom s
    unfold process_document
    rw [ht]
    exact ⟨rfl, rfl⟩

/-- C5, witness: the amended theorem applied at the declared types
`txt` and `raw_text`. -/
theorem C5_loader_dispatch_witness :
    dispatchLoader "txt" = none ∧
    process_document (fun _ => ([] : List Doc)) "raw_text" []
        (AppState.mk [] [] 0) =
      .error ("Unsupported file type: " ++ "raw_text") ∧
    process_document (fun _ => ([] : List Doc)) "raw_text" [] (AppState.mk [] [] 0) =
      process_document
        (fun _ => ([{ page_content := "x", metadata := [] }] : List Doc))
        "raw_text" [] (AppState.mk [] [] 0) :=
  ⟨C5_loader_dispatch.2.2.2.1 "txt" (by decide) (by decide) (by decide),
   (C5_loader_dispatch.2.2.2.2 "raw_text" rfl (fun _ => [])
     (fun _ => [{ page_content := "x", metadata := [] }]) [] (AppState.mk [] [] 0)).1,
   (C5_loader_dispatch.2.2.2.2 "raw_text" rfl (fun _ => [])
     (fun _ => [{ page_content := "x", metadata := [] }]) [] (AppState.mk [] [] 0)).2⟩

/-- C6, code bug: a request whose keywords field is not valid JSON is
indeed rejected before any file write, embedding call or store insertion
(the resulting state is unchanged), but the catch-all
`except Exception` of `upload_file` re-wraps the handler-raised
`HTTPException(400)` into an `HTTPException(500)`, so the rejection is
reported as a server error instead of a caller-input error.  A request
with `title` omitted is rejected by the framework with a 422 validation
error, before the handler body runs. -/
theorem C6_keywords_error_wrapped_500 :
    upload_file (fun _ => none) (fun _ => []) "doc.pdf" "T" none "oops"
        (AppState.mk [] [] 0) =
      (.error (.httpException 500
          "An error occurred: 400: Invalid keywords format: Expecting value"),
       AppState.mk [] [] 0) ∧
    upload_endpoint (fun _ => none) (fun _ => []) "doc.pdf" none none "[]"
        (AppState.mk [] [] 0) =
      (.error (.httpException 422 "Field required"), AppState.mk [] [] 0) :=
  ⟨rfl, rfl⟩

/-- C7: retrieval returns the stored records in non-increasing
similarity order with `length = min k N`; the metadata-aware chat
endpoint retrieves with `k = chat_k = 5`, and the plain-chat default is
`plain_chat_k = 3` (spec-modelled; no plain-chat endpoint exists in the
source). -/
theorem C7_retrieval_ordering :
    chat_k = 5 ∧ plain_chat_k = 3 ∧
    ∀ (sim : Doc → Int) (store : List Doc) (k : Nat),
      (vsQuery sim store k).length = min k store.length ∧
      (vsQuery sim store k).Pairwise (fun a b => sim b ≤ sim a) :=
  ⟨rfl, rfl, fun sim store k => ⟨vsQuery_length sim store k, vsQuery_sorted sim store k⟩⟩

set_option maxHeartbeats 1000000 in
/-- C8: (a) on every successful upload whose keywords field parses to a
JSON list of strings, every chunk added to the vector store carries the
keyword list flattened to a single `"; "`-joined string; (b) delivering
the same keywords as a `;`-delimited string which the frontend splits
(`keywords_list`) recovers exactly the structured list, for keyword
lists representable in the delimited form (nonempty keywords without
`;` or surrounding whitespace), so both delivery modes normalize to the
same internal representation. -/
theorem C8_keywords_normalization :
    (∀ (parseJson : String → Option JVal) (load : LoaderKind → List Doc)
        (filename title : String) (link : Option String) (keywords : String)
        (s : AppState) (ss : List String) (r : UploadOk) (s2 : AppState),
      parseJson keywords = some (.jlist (ss.map JVal.jstr)) →
      upload_file parseJson load filename title link keywords s = (.ok r, s2) →
        ∃ chunks, s2.store = s.store ++ chunks ∧
          ∀ c ∈ chunks, List.lookup "keywords" c.metadata =
            some (.vStr (pyStrJoin "; " ss))) ∧
    (∀ ks : List (List Char),
      (∀ k ∈ ks, !k.isEmpty) →
      (∀ k ∈ ks, !k.contains ';') →
      (∀ k ∈ ks, k.head?.all (fun c => !c.isWhitespace)) →
      (∀ k ∈ ks, k.getLast?.all (fun c => !c.isWhitespace)) →
      keywords_list (String.mk (pyJoinChars [';', ' '] ks)) = ks.map String.mk) := by
  constructor
  · intro parseJson load filename title link keywords s ss r s2 hparse h
    rw [upload_file_eq] at h
    cases hp : (process_document load (file_extension_of filename)
        [("title", .vStr title),
         ("link", pyOfLink link),
         ("filename", .vStr filename),
         ("keywords", .vStr (pyStrJoin "; " ss))]
        { s with temp := pyWriteFile (TEMP_UPLOAD_DIR ++ "/" ++ filename) s.temp }) with
    | error e =>
      rw [upload_body_proc_err _ _ _ _ _ _ _ _ _ hparse hp] at h
      exact absurd (congrArg Prod.fst h) (by simp)
    | ok sProc =>
      rw [upload_body_proc_ok _ _ _ _ _ _ _ _ _ hparse hp] at h
      have hs2 : s2 = { sProc with
          temp := pyRemoveFile (TEMP_UPLOAD_DIR ++ "/" ++ filename) sProc.temp } :=
        (congrArg Prod.snd h).symm
      rcases process_document_ok _ _ _ _ _ hp with ⟨k, hk, rfl⟩
      refine ⟨split_documents (annotateDocs (load k)
          [("title", .vStr title), ("link", pyOfLink link),
           ("filename", .vStr filename), ("keywords", .vStr (pyStrJoin "; " ss))]),
        ?_, ?_⟩
      · rw [hs2]
        rfl
      · intro c hc
        exact (split_annotate_metadata _ _ c hc).1 "keywords" _ rfl
  · intro ks h1 h2 h3 h4
    apply keywords_list_join
    · intro k hk
      have := h1 k hk
      simpa [List.isEmpty_iff] using this
    · intro k hk
      have := h2 k hk
      simpa using this
    · intro k hk c hc
      have := h3 k hk
      rw [hc] at this
      simpa using this
    · intro k hk c hc
      have := h4 k hk
      rw [hc] at this
      simpa using this

/-- C8, witness: a concrete upload with keywords `["a", "b"]` stores
`"a; b"` on the single produced chunk, and splitting `"a; b"` back
recovers `["a", "b"]`. -/
theorem C8_keywords_normalization_witness :
    (∃ chunks,
      (AppState.mk [{ page_content := "hi",
                      metadata := [("page", PyVal.vInt 0), ("title", PyVal.vStr "T"),
                                   ("link", PyVal.vNone), ("filename", PyVal.vStr "doc.pdf"),
                                   ("keywords", PyVal.vStr "a; b")] }] [] 1).store =
        (AppState.mk [] [] 0).store ++ chunks ∧
      ∀ c ∈ chunks, List.lookup "keywords" c.metadata =
        some (.vStr (pyStrJoin "; " ["a", "b"]))) ∧
    keywords_list (String.mk (pyJoinChars [';', ' '] [['a'], ['b']])) =
      [['a'], ['b']].map String.mk := by
  constructor
  · exact C8_keywords_normalization.1
      (fun _ => some (.jlist [.jstr "a", .jstr "b"]))
      (fun _ => [{ page_content := "hi", metadata := [("page", PyVal.vInt 0)] }])
      "doc.pdf" "T" none "x" (AppState.mk [] [] 0) ["a", "b"]
      { status := "success", filename := "doc.pdf",
        message := "File and metadata processed successfully." }
      (AppState.mk [{ page_content := "hi",
                      metadata := [("page", PyVal.vInt 0), ("title", PyVal.vStr "T"),
                                   ("link", PyVal.vNone), ("filename", PyVal.vStr "doc.pdf"),
                                   ("keywords", PyVal.vStr "a; b")] }] [] 1)
      rfl rfl
  · exact C8_keywords_normalization.2 [['a'], ['b']]
      (by decide) (by decide) (by decide) (by decide)

/-- C9: when the language-model handle is not initialized the chat
handler fails with the 503 service-unavailable error; a successful chat
response carries exactly the text the generation service returned for
the assembled prompt (so a "do not know" answer can only come from the
model itself, never from the handler), and a generation-service failure
propagates to the caller as an error rather than being downgraded to an
empty or default answer. -/
theorem C9_generation_unavailable :
    (∀ (sim : Doc → Int) (store : List Doc) (queryText : String),
      chat_with_docs none sim store queryText =
        .error (.httpException 503 "LLM service is not available.")) ∧
    (∀ (generate : String → Except String String) (sim : Doc → Int) (store : List Doc)
        (queryText : String) (r : QueryResponse),
      chat_with_docs (some generate) sim store queryText = .ok r →
        generate (promptFor (contextText (buildContext (vsQuery sim store chat_k)))
          queryText) = .ok r.response) ∧
    (∀ (generate : String → Except String String) (sim : Doc → Int) (store : List Doc)
        (queryText : String) (e : String),
      generate (promptFor (contextText (buildContext (vsQuery sim store chat_k)))
        queryText) = .error e →
      chat_with_docs (some generate) sim store queryText =
        .error (.uncaughtException e)) := by
  refine ⟨fun _ _ _ => rfl, ?_, ?_⟩
  · intro g sim store q r h
    unfold chat_with_docs at h
    dsimp only at h
    cases hg : g (promptFor (contextText (buildContext (vsQuery sim store chat_k))) q) with
    | error e =>
      rw [hg] at h
      exact absurd h (by simp)
    | ok t =>
      rw [hg] at h
      have hr := Except.ok.inj h
      subst hr
      rfl
  · intro g sim store q e h
    unfold chat_with_docs
    dsimp only
    rw [h]

/-- C9, witness: the three parts at concrete inputs — an uninitialized
handle yields the 503 error; a model that answers "I cannot say" has its
answer passed through verbatim; a connection failure at generation time
escapes as an uncaught error. -/
theorem C9_generation_unavailable_witness :
    chat_with_docs none (fun _ => (0 : Int)) [] "q" =
      .error (.httpException 503 "LLM service is not available.") ∧
    (fun _ : String => (Except.ok "I cannot say" : Except String String))
        (promptFor (contextText (buildContext (vsQuery (fun _ => (0 : Int)) [] chat_k)))
          "q") =
      .ok (QueryResponse.mk "I cannot say" []).response ∧
    chat_with_docs
        (some (fun _ => (Except.error "connection refused" : Except String String)))
        (fun _ => (0 : Int)) [] "q" =
      .error (.uncaughtException "connection refused") := by
  refine ⟨C9_generation_unavailable.1 (fun _ => (0 : Int)) [] "q", ?_, ?_⟩
  · exact C9_generation_unavailable.2.1
      (fun _ : String => (Except.ok "I cannot say" : Except String String))
      (fun _ => (0 : Int)) [] "q"
      (QueryResponse.mk "I cannot say" [])
      (by simp [chat_with_docs, vsQuery, List.mergeSort, buildContext, buildSources,
            buildSourcesAux])
  · exact C9_generation_unavailable.2.2 _ (fun _ => (0 : Int)) [] "q"
      "connection refused" rfl

/-- C10: whatever the upload request and however it ends, the handler
returns with the temporary copy of the uploaded file removed from the
temp-upload directory: the final temp state is the initial one with the
upload path filtered out. -/
theorem C10_temp_file_removed (parseJson : String → Option JVal)
    (load : LoaderKind → List Doc) (filename title : String) (link : Option String)
    (keywords : String) (s : AppState) :
    ((upload_file parseJson load filename title link keywords s).2).temp =
      s.temp.filter (fun q => q ≠ TEMP_UPLOAD_DIR ++ "/" ++ filename) := by
  rw [upload_file_eq]
  dsimp only
  rcases upload_body_temp parseJson load filename title link keywords s with h | h <;>
    rw [h]
  · rfl
  · exact pyRemove_pyWrite _ _

end RagApi
